import Mathlib

/-!  Verification of the tkp streaming ingestion subsystem (src/tkp/stream.py).

The Python source is shallowly embedded:
* a socket becomes an explicit state: the list of bytes the peer will still
  deliver before closing, plus a chunk-size oracle describing how the kernel
  splits that data over successive recv calls;
* raised exceptions become Option/Except error values;
* the merger loop becomes a fold over the finite list of records taken off
  the input queue, and the connector loop a fold over the finite list of
  connect-attempt outcomes;
* wire bytes are Nat (0..255), and 32-bit floats are kept as their
  little-endian 32-bit bit patterns, since struct.unpack only reinterprets
  the bytes and the program never computes with the float values.
-/

namespace TKP

/-- State of one TCP connection as seen by the reader: `data` is the list of
bytes the peer will still deliver before closing the connection, `sched` is
an oracle giving the chunk size the kernel hands back on each successive
recv call (indexed by `calls`, the number of recv calls made so far).  A
blocking recv returns at least one byte unless the peer has closed. -/
structure SockState where
  data : List Nat
  sched : Nat → Nat
  calls : Nat

/-- `socket_.recv(count)`: returns between 1 and `count` bytes while data
remains, and the empty string once the peer has closed (zero-length read). -/
def sockRecv (s : SockState) (count : Nat) : List Nat × SockState :=
  let k := min count (max 1 (s.sched s.calls))
  (s.data.take k, ⟨s.data.drop k, s.sched, s.calls + 1⟩)

/-- The loop body of `getbytes` (stream.py lines 40-58): while `count > 0`,
recv up to `count` bytes; a zero-length read raises
`Exception("Server closed connection")` (modelled as `none`); otherwise the
received chunk is appended to the result and `count` decreases by its
length.  Each successful recv returns at least one byte, so the loop runs at
most `count` iterations; `fuel` (instantiated with the initial `count` in
`getbytes`) is a structural bound on those iterations, never reached. -/
def getbytesFuel : Nat → SockState → Nat → Option (List Nat × SockState)
  | _, s, 0 => some ([], s)
  | 0, _, _ + 1 => none
  | fuel + 1, s, count + 1 =>
    let p := sockRecv s (count + 1)
    if p.1.length = 0 then none
    else (getbytesFuel fuel p.2 (count + 1 - p.1.length)).map
      (fun q => (p.1 ++ q.1, q.2))

/-- `getbytes(socket_, bytes_)` from stream.py: read exactly `count` bytes
from the socket, blocking until the full length is obtained; `none` models
the raised "Server closed connection" exception. -/
def getbytes (s : SockState) (count : Nat) : Option (List Nat × SockState) :=
  getbytesFuel count s count

theorem sockRecv_fst_length_le (s : SockState) (count : Nat) :
    (sockRecv s count).1.length ≤ count := by
  simp only [sockRecv, List.length_take]
  omega

theorem getbytesFuel_length : ∀ (fuel : Nat) (s : SockState) (count : Nat)
    (b : List Nat) (s2 : SockState),
    getbytesFuel fuel s count = some (b, s2) → b.length = count := by
  intro fuel
  induction fuel with
  | zero =>
    intro s count b s2 h
    cases count with
    | zero =>
      simp only [getbytesFuel, Option.some.injEq, Prod.mk.injEq] at h
      simp [← h.1]
    | succ n => simp [getbytesFuel] at h
  | succ fuel ih =>
    intro s count b s2 h
    cases count with
    | zero =>
      simp only [getbytesFuel, Option.some.injEq, Prod.mk.injEq] at h
      simp [← h.1]
    | succ n =>
      simp only [getbytesFuel] at h
      by_cases hl : (sockRecv s (n + 1)).1.length = 0
      · rw [if_pos hl] at h; cases h
      · rw [if_neg hl] at h
        rcases Option.map_eq_some'.mp h with ⟨⟨rest, s3⟩, hrec, hmk⟩
        have hlen := ih _ _ _ _ hrec
        have hle := sockRecv_fst_length_le s (n + 1)
        cases hmk
        simp only [List.length_append, hlen]
        omega

theorem getbytesFuel_take : ∀ (fuel : Nat) (s : SockState) (count : Nat),
    count ≤ fuel → count ≤ s.data.length →
    ∃ s2 : SockState, getbytesFuel fuel s count = some (s.data.take count, s2)
      ∧ s2.data = s.data.drop count := by
  intro fuel
  induction fuel with
  | zero =>
    intro s count hf hd
    have : count = 0 := Nat.le_zero.mp hf
    subst this
    exact ⟨s, by simp [getbytesFuel], by simp⟩
  | succ fuel ih =>
    intro s count hf hd
    cases count with
    | zero => exact ⟨s, by simp [getbytesFuel], by simp⟩
    | succ n =>
      have hk1 : 1 ≤ min (n + 1) (max 1 (s.sched s.calls)) := by omega
      have hkc : min (n + 1) (max 1 (s.sched s.calls)) ≤ n + 1 := Nat.min_le_left _ _
      set k := min (n + 1) (max 1 (s.sched s.calls)) with hk
      have hfst : (sockRecv s (n + 1)).1 = s.data.take k := rfl
      have hlen : (sockRecv s (n + 1)).1.length = k := by
        rw [hfst, List.length_take]
        omega
      have hne : ¬ (sockRecv s (n + 1)).1.length = 0 := by omega
      have hsnd : (sockRecv s (n + 1)).2 = ⟨s.data.drop k, s.sched, s.calls + 1⟩ := rfl
      have hrec := ih (sockRecv s (n + 1)).2 (n + 1 - k) (by omega)
        (by rw [hsnd]; simp only [List.length_drop]; omega)
      rcases hrec with ⟨s2, hrec, hdata⟩
      refine ⟨s2, ?_, ?_⟩
      · simp only [getbytesFuel, hlen, hrec, Option.map_some']
        rw [if_neg (by omega : ¬ k = 0)]
        have ht := List.take_add s.data k (n + 1 - k)
        rw [show k + (n + 1 - k) = n + 1 by omega] at ht
        rw [hfst, hsnd, ht]
      · rw [hdata, hsnd]
        simp only [List.drop_drop]
        rw [show k + (n + 1 - k) = n + 1 by omega]

theorem getbytesFuel_closed : ∀ (fuel : Nat) (s : SockState) (count : Nat),
    s.data.length < count → getbytesFuel fuel s count = none := by
  intro fuel
  induction fuel with
  | zero =>
    intro s count hd
    cases count with
    | zero => omega
    | succ n => simp [getbytesFuel]
  | succ fuel ih =>
    intro s count hd
    cases count with
    | zero => omega
    | succ n =>
      set k := min (n + 1) (max 1 (s.sched s.calls)) with hk
      have hfst : (sockRecv s (n + 1)).1 = s.data.take k := rfl
      have hsnd : (sockRecv s (n + 1)).2 = ⟨s.data.drop k, s.sched, s.calls + 1⟩ := rfl
      have hlen : (sockRecv s (n + 1)).1.length = min k s.data.length := by
        rw [hfst, List.length_take]
      by_cases hl : (sockRecv s (n + 1)).1.length = 0
      · simp [getbytesFuel, hl]
      · have hrec : getbytesFuel fuel (sockRecv s (n + 1)).2
            (n + 1 - (sockRecv s (n + 1)).1.length) = none := by
          apply ih
          rw [hsnd]
          simp only [List.length_drop]
          omega
        simp [getbytesFuel, hl, hrec]

theorem getbytes_take (s : SockState) (count : Nat) (hd : count ≤ s.data.length) :
    ∃ s2 : SockState, getbytes s count = some (s.data.take count, s2)
      ∧ s2.data = s.data.drop count :=
  getbytesFuel_take count s count (Nat.le_refl _) hd

/-- C6: `getbytes` returns exactly `n` bytes when it returns; a peer close
(zero-length read) before completion raises ConnectionClosed (modelled as
`none`); and for `n = 0` it returns the empty string with the socket state
untouched. -/
theorem getbytes_exact_read (s : SockState) (n : Nat) :
    getbytes s 0 = some ([], s)
    ∧ (∀ (b : List Nat) (s2 : SockState), getbytes s n = some (b, s2) → b.length = n)
    ∧ (s.data.length < n → getbytes s n = none) := by
  refine ⟨rfl, ?_, ?_⟩
  · intro b s2 h
    exact getbytesFuel_length n s n b s2 h
  · intro hd
    exact getbytesFuel_closed n s n hd

/-- Witness for C6 at a concrete socket: delivery in chunks of 2, data
[5,6,7]; reading 2 bytes yields exactly [5,6]; reading 4 bytes hits the
peer close and fails. -/
theorem getbytes_exact_read_witness :
    ([5, 6] : List Nat).length = 2
    ∧ getbytes ⟨[5, 6, 7], fun _ => 2, 0⟩ 4 = none := by
  constructor
  · exact (getbytes_exact_read ⟨[5, 6, 7], fun _ => 2, 0⟩ 2).2.1 [5, 6]
      ⟨[7], fun _ => 2, 1⟩ rfl
  · exact (getbytes_exact_read ⟨[5, 6, 7], fun _ => 2, 0⟩ 4).2.2 (by simp)

/-- The magic constant from stream.py ("the checksum is used to check if we
are not drifting in the data flow"). -/
def CHECKSUM : Nat := 0x47494A53484F4D4F

/-- Little-endian interpretation of a byte list, as struct.unpack does for
the native/little-endian formats Q (on the 8-byte slice) and =L (on the
4-byte slices). -/
def leBytes : List Nat → Nat
  | [] => 0
  | b :: rest => b + 256 * leBytes rest

/-- The exceptions `read_window` can raise: the "Server closed connection"
exception from `getbytes`, and the AssertionError from the magic check
(ProtocolCorruption in the spec taxonomy). -/
inductive ReadErr where
  | connectionClosed
  | protocolCorruption
deriving DecidableEq

/-- `read_window(socket_)` from stream.py: read the fixed 512-byte header,
decode the 64-bit magic from bytes 0-7, the 32-bit metadata length from
bytes 8-11 and the 32-bit pixel length from bytes 12-15; assert the magic
equals CHECKSUM (failure raised before any payload byte is read); then read
exactly `fits_length` metadata bytes and `array_length` pixel bytes.  On
error the socket state at the raise point is returned alongside the error
(on the connection-closed path the partially drained state is not tracked;
no claim depends on it). -/
def read_window (s : SockState) :
    Except (ReadErr × SockState) ((List Nat × List Nat) × SockState) :=
  match getbytes s 512 with
  | none => .error (.connectionClosed, s)
  | some (header_bytes, s1) =>
    let magic := leBytes (header_bytes.take 8)
    let fits_length := leBytes ((header_bytes.drop 8).take 4)
    let array_length := leBytes ((header_bytes.drop 12).take 4)
    if magic = CHECKSUM then
      match getbytes s1 fits_length with
      | none => .error (.connectionClosed, s1)
      | some (fits_bytes, s2) =>
        match getbytes s2 array_length with
        | none => .error (.connectionClosed, s2)
        | some (image_bytes, s3) => .ok ((fits_bytes, image_bytes), s3)
    else .error (.protocolCorruption, s1)

/-- C5: `read_window` reads a fixed 512-byte header and interprets bytes 0-7
as the 64-bit magic, bytes 8-11 as the metadata-block length and bytes 12-15
as the pixel-block length; a magic mismatch fails with ProtocolCorruption
(no resynchronization attempt: the error is raised at once), and with a
matching magic the next `fits_length` bytes and then `array_length` bytes of
the stream are returned as the two payloads. -/
theorem read_window_header_layout (s : SockState) (h512 : 512 ≤ s.data.length) :
    (leBytes (s.data.take 8) ≠ CHECKSUM →
      ∃ s2, read_window s = .error (.protocolCorruption, s2))
    ∧ (leBytes (s.data.take 8) = CHECKSUM →
      512 + leBytes ((s.data.drop 8).take 4) + leBytes ((s.data.drop 12).take 4)
          ≤ s.data.length →
      ∃ s3, read_window s = .ok
        (((s.data.drop 512).take (leBytes ((s.data.drop 8).take 4)),
          (s.data.drop (512 + leBytes ((s.data.drop 8).take 4))).take
            (leBytes ((s.data.drop 12).take 4))), s3)) := by
  obtain ⟨s1, hget, hs1⟩ := getbytes_take s 512 h512
  have htake8 : (s.data.take 512).take 8 = s.data.take 8 := by
    rw [List.take_take]; norm_num
  have htake84 : ((s.data.take 512).drop 8).take 4 = (s.data.drop 8).take 4 := by
    rw [List.drop_take, List.take_take]; norm_num
  have htake124 : ((s.data.take 512).drop 12).take 4 = (s.data.drop 12).take 4 := by
    rw [List.drop_take, List.take_take]; norm_num
  constructor
  · intro hmagic
    refine ⟨s1, ?_⟩
    simp only [read_window, hget, htake8]
    rw [if_neg hmagic]
  · intro hmagic hroom
    set fl := leBytes ((s.data.drop 8).take 4) with hfl
    set al := leBytes ((s.data.drop 12).take 4) with hal
    obtain ⟨s2, hget2, hs2⟩ := getbytes_take s1 fl
      (by rw [hs1]; simp only [List.length_drop]; omega)
    obtain ⟨s3, hget3, hs3⟩ := getbytes_take s2 al
      (by rw [hs2, hs1]; simp only [List.length_drop]; omega)
    refine ⟨s3, ?_⟩
    simp only [read_window, hget, htake8, htake84, htake124, ← hfl, ← hal]
    rw [if_pos hmagic]
    simp only [hget2, hget3]
    rw [hs1, hs2, hs1]
    simp only [List.drop_drop]

set_option maxRecDepth 20000 in
/-- Witness for C5: a concrete 516-byte stream with a valid magic,
metadata length 3 and pixel length 1 yields the payloads [9,8,7] and [6];
a concrete 515-byte stream starting with a zeroed header fails with
ProtocolCorruption. -/
theorem read_window_header_layout_witness :
    (∃ s3, read_window ⟨[0x4F, 0x4D, 0x4F, 0x48, 0x53, 0x4A, 0x49, 0x47,
        3, 0, 0, 0, 1, 0, 0, 0] ++ List.replicate 496 0 ++ [9, 8, 7, 6],
        fun _ => 1024, 0⟩ = .ok (([9, 8, 7], [6]), s3))
    ∧ (∃ s2, read_window ⟨List.replicate 515 0, fun _ => 1024, 0⟩
        = .error (.protocolCorruption, s2)) := by
  constructor
  · obtain ⟨s3, h⟩ := (read_window_header_layout
      ⟨[0x4F, 0x4D, 0x4F, 0x48, 0x53, 0x4A, 0x49, 0x47,
        3, 0, 0, 0, 1, 0, 0, 0] ++ List.replicate 496 0 ++ [9, 8, 7, 6],
        fun _ => 1024, 0⟩ (by simp)).2 (by decide) (by decide)
    refine ⟨s3, ?_⟩
    rw [h]
    congr 1
  · exact (read_window_header_layout
      ⟨List.replicate 515 0, fun _ => 1024, 0⟩ (by simp)).1 (by decide)

/-- C10: when `read_window` fails on a magic mismatch it has consumed
exactly the 512 header bytes and nothing more — the magic check happens
only after the full header is read, and no metadata or pixel bytes are
consumed on the error path. -/
theorem read_window_magic_consumes_header (s : SockState)
    (h512 : 512 ≤ s.data.length)
    (hmagic : leBytes (s.data.take 8) ≠ CHECKSUM) :
    ∃ s2, read_window s = .error (.protocolCorruption, s2)
      ∧ s2.data = s.data.drop 512 := by
  obtain ⟨s1, hget, hs1⟩ := getbytes_take s 512 h512
  have htake8 : (s.data.take 512).take 8 = s.data.take 8 := by
    rw [List.take_take]; norm_num
  refine ⟨s1, ?_, hs1⟩
  simp only [read_window, hget, htake8]
  rw [if_neg hmagic]

set_option maxRecDepth 20000 in
/-- Witness for C10: a concrete stream of a zeroed 512-byte header followed
by three extra bytes fails with ProtocolCorruption, leaving exactly those
three bytes undelivered. -/
theorem read_window_magic_consumes_header_witness :
    ∃ s2, read_window ⟨List.replicate 512 0 ++ [1, 2, 3], fun _ => 7, 0⟩
      = .error (.protocolCorruption, s2)
      ∧ s2.data = (List.replicate 512 0 ++ [1, 2, 3] : List Nat).drop 512 := by
  exact read_window_magic_consumes_header
    ⟨List.replicate 512 0 ++ [1, 2, 3], fun _ => 7, 0⟩ (by simp) (by decide)

/-- A parsed FITS header value: integer or string.  astropy's
Header.fromstring (an external library) parses the textual 80-character
card records of the metadata block into this key/value form; the embedding
works on the parsed form directly. -/
inductive HVal where
  | num (n : Nat)
  | str (s : String)
deriving DecidableEq

/-- Header lookup, hdu_header[key] (a missing key raises KeyError,
handled at the use sites). -/
def hlookup (hdr : List (String × HVal)) (key : String) : Option HVal :=
  match hdr.find? (fun p => p.1 == key) with
  | some p => some p.2
  | none => none

/-- The exceptions `reconstruct_fits` can raise (all DecodeError in the
spec's taxonomy): struct.error when the pixel block length is not a
multiple of 4, the numpy reshape error when the float count does not match
NAXIS1 times NAXIS2, and KeyError when a required header key is absent or
not an integer. -/
inductive DecodeError where
  | structError
  | reshapeError
  | keyError
deriving DecidableEq

/-- struct.unpack of consecutive little-endian 32-bit values: group the
byte list into 4-byte words, least significant byte first; any trailing
partial word is the struct.error case, rejected in `reconstruct_fits`
before this grouping matters. -/
def le32words : List Nat → List Nat
  | b0 :: b1 :: b2 :: b3 :: rest =>
    (b0 + 256 * b1 + 65536 * b2 + 16777216 * b3) :: le32words rest
  | _ => []

/-- np.reshape(image_array, (width, length)): `rows` rows of `cols`
consecutive elements, row-major. -/
def chunkRows : Nat → Nat → List Nat → List (List Nat)
  | 0, _, _ => []
  | rows + 1, cols, l => l.take cols :: chunkRows rows cols (l.drop cols)

/-- The reconstructed record (the HDUList of the source): the full parsed
header (hdu.header = hdu_header keeps every card) and the pixel matrix as
rows of 32-bit float bit patterns. -/
structure ImageRecord where
  header : List (String × HVal)
  matrix : List (List Nat)
deriving DecidableEq

/-- `reconstruct_fits(fits_bytes, image_bytes)` from stream.py, over the
parsed form of the metadata block: look up NAXIS1 (width) and NAXIS2
(length), unpack the pixel block as len(image_bytes)/4 (Python 2 floor
division) little-endian 32-bit floats — struct.error if the byte length is
not a multiple of 4 — and reshape them into a width-by-length row-major
matrix, an error when the count differs from width*length.  The function
never reads date-obs. -/
def reconstruct_fits (fits_header : List (String × HVal))
    (image_bytes : List Nat) : Except DecodeError ImageRecord :=
  match hlookup fits_header "NAXIS1", hlookup fits_header "NAXIS2" with
  | some (.num width), some (.num length) =>
    if image_bytes.length % 4 = 0 then
      let image_array := le32words image_bytes
      if image_array.length = width * length then
        .ok ⟨fits_header, chunkRows width length image_array⟩
      else .error .reshapeError
    else .error .structError
  | _, _ => .error .keyError

/-- Numeric value of an ASCII digit. -/
def digitVal (c : Char) : Nat := c.toNat - 48

/-- Order-preserving encoding of a calendar date-time with whole-second
precision as a single Nat (the fields stay inside calendar ranges),
standing in for the datetime.datetime value the external date parsing
library produces. -/
def tsEncode (y mo d h mi s : Nat) : Nat :=
  ((((y * 13 + mo) * 32 + d) * 24 + h) * 60 + mi) * 60 + s

/-- Model of the external dateutil parse call restricted to the strict
ISO-8601 form YYYY-MM-DDTHH:MM:SS used on this stream; any other shape
raises, modelled as `none`.  (The external parser accepts more formats; the
claims only exercise this form and clearly unparsable strings.) -/
def dateParse (str : String) : Option Nat :=
  match str.data with
  | [y1, y2, y3, y4, c1, m1, m2, c2, d1, d2, c3, h1, h2, c4, n1, n2, c5, s1, s2] =>
    if (c1 == '-' && c2 == '-' && c3 == 'T' && c4 == ':' && c5 == ':'
        && [y1, y2, y3, y4, m1, m2, d1, d2, h1, h2, n1, n2, s1, s2].all Char.isDigit)
    then some (tsEncode
        (digitVal y1 * 1000 + digitVal y2 * 100 + digitVal y3 * 10 + digitVal y4)
        (digitVal m1 * 10 + digitVal m2)
        (digitVal d1 * 10 + digitVal d2)
        (digitVal h1 * 10 + digitVal h2)
        (digitVal n1 * 10 + digitVal n2)
        (digitVal s1 * 10 + digitVal s2))
    else none
  | _ => none

/-- `extract_timestamp(hdulist)` from stream.py: parse
hdulist[0].header['date-obs']; `none` models the raise on a missing key or
an unparsable value. -/
def extract_timestamp (rec : ImageRecord) : Option Nat :=
  match hlookup rec.header "date-obs" with
  | some (.str s) => dateParse s
  | _ => none

theorem le32words_length : ∀ l : List Nat, (le32words l).length = l.length / 4
  | [] => by simp [le32words]
  | [_] => by simp [le32words]
  | [_, _] => by simp [le32words]
  | [_, _, _] => by simp [le32words]
  | _ :: _ :: _ :: _ :: rest => by
    simp only [le32words, List.length_cons, le32words_length rest]
    omega

/-- C7: if the metadata declares NAXIS1 = w and NAXIS2 = h and the pixel
block's byte length differs from 4*w*h, `reconstruct_fits` fails with a
DecodeError (struct.error on a trailing partial word, the reshape error
otherwise). -/
theorem reconstruct_length_mismatch (hdr : List (String × HVal))
    (image_bytes : List Nat) (w h : Nat)
    (h1 : hlookup hdr "NAXIS1" = some (.num w))
    (h2 : hlookup hdr "NAXIS2" = some (.num h))
    (hlen : image_bytes.length ≠ 4 * (w * h)) :
    ∃ e, reconstruct_fits hdr image_bytes = .error e := by
  by_cases hm : image_bytes.length % 4 = 0
  · refine ⟨.reshapeError, ?_⟩
    simp only [reconstruct_fits, h1, h2]
    rw [if_pos hm, if_neg]
    rw [le32words_length]
    omega
  · refine ⟨.structError, ?_⟩
    simp only [reconstruct_fits, h1, h2]
    rw [if_neg hm]

/-- Witness for C7: a header declaring a 2-by-2 image with a 15-byte pixel
block is rejected. -/
theorem reconstruct_length_mismatch_witness :
    ∃ e, reconstruct_fits [("NAXIS1", .num 2), ("NAXIS2", .num 2)]
      (List.replicate 15 0) = .error e :=
  reconstruct_length_mismatch [("NAXIS1", .num 2), ("NAXIS2", .num 2)]
    (List.replicate 15 0) 2 2 (by decide) (by decide) (by decide)

/-- The metadata of the concrete frame of C8: NAXIS1=2, NAXIS2=2,
date-obs=2020-01-01T00:00:00. -/
def sampleHeader : List (String × HVal) :=
  [("NAXIS1", .num 2), ("NAXIS2", .num 2),
   ("date-obs", .str "2020-01-01T00:00:00")]

/-- The 16-byte pixel block of the concrete frame of C8: the little-endian
IEEE-754 single-precision encodings of 1.0, 2.0, 3.0, 4.0. -/
def samplePixels : List Nat :=
  [0, 0, 128, 63, 0, 0, 0, 64, 0, 0, 64, 64, 0, 0, 128, 64]

/-- C8: reconstructing the concrete frame yields the row-major matrix
[[1.0, 2.0], [3.0, 4.0]] — as bit patterns, 0x3F800000 = 1.0,
0x40000000 = 2.0, 0x40400000 = 3.0, 0x40800000 = 4.0 — with the full header
kept on the record, and the record's extracted timestamp is
2020-01-01T00:00:00. -/
theorem reconstruct_concrete_frame :
    reconstruct_fits sampleHeader samplePixels
      = .ok ⟨sampleHeader, [[0x3F800000, 0x40000000], [0x40400000, 0x40800000]]⟩
    ∧ extract_timestamp ⟨sampleHeader,
        [[0x3F800000, 0x40000000], [0x40400000, 0x40800000]]⟩
      = some (tsEncode 2020 1 1 0 0 0) := by
  exact ⟨by rfl, by decide⟩

/-- One iteration's input to the connection_handler loop: either
`read_window` raised (the caught ConnectionClosed / ProtocolCorruption
path), or it returned a frame, given here in the parsed-header form that
`reconstruct_fits` consumes. -/
inductive FrameIn where
  | readErr
  | frame (fits_header : List (String × HVal)) (image_bytes : List Nat)
deriving DecidableEq

/-- How the connection_handler loop ends. -/
inductive HandlerExit where
  | caughtBreak
  | uncaught (e : DecodeError)
  | running
deriving DecidableEq

/-- `connection_handler(socket_, queue)` from stream.py over the finite
list of read outcomes: the try/except wraps only read_window, so a read
failure is logged and breaks the loop (`caughtBreak`, control returns to
the connector), while reconstruct_fits runs in the try's else branch and an
exception it raises is not caught (`uncaught`).  Successful records are
appended to the queue in order.  `running` means the outcome list was
exhausted with the loop still going. -/
def connection_handler : List FrameIn → List ImageRecord →
    List ImageRecord × HandlerExit
  | [], q => (q, .running)
  | .readErr :: _, q => (q, .caughtBreak)
  | .frame hdr img :: rest, q =>
    match reconstruct_fits hdr img with
    | .error e => (q, .uncaught e)
    | .ok rec => connection_handler rest (q ++ [rec])

/-- One outcome of a connect attempt in the connector loop. -/
inductive ConnEvent where
  | connectFail
  | connectOk (frames : List FrameIn)
deriving DecidableEq

/-- Externally visible events of one Connection Worker, in order:
`attempt` = a TCP connect call, `sleep5` = time.sleep(5), `streamStart` =
a successful connect handing the socket to connection_handler. -/
inductive TraceEv where
  | attempt
  | sleep5
  | streamStart
deriving DecidableEq

/-- How the connector loop ends. -/
inductive WorkerExit where
  | running
  | crashed (e : DecodeError)
deriving DecidableEq

/-- `connector(host, port, queue)` from stream.py over the finite list of
connect-attempt outcomes: a failed connect logs, sleeps 5 seconds and
retries; a successful connect calls connection_handler, and when that
returns (its caught break) the loop immediately retries the connect with no
sleep.  An exception escaping connection_handler is raised in the try's
else branch, so the connector's except clause does not catch it either: it
propagates out of the while loop and terminates the worker (`crashed`). -/
def connector : List ConnEvent → List TraceEv × List ImageRecord × WorkerExit
  | [] => ([], [], .running)
  | .connectFail :: rest =>
    let r := connector rest
    (.attempt :: .sleep5 :: r.1, r.2)
  | .connectOk frames :: rest =>
    match connection_handler frames [] with
    | (q, .caughtBreak) =>
      let r := connector rest
      (.attempt :: .streamStart :: r.1, q ++ r.2.1, r.2.2)
    | (q, .uncaught e) => ([.attempt, .streamStart], q, .crashed e)
    | (q, .running) => ([.attempt, .streamStart], q, .running)

/-- Counterexample to C3: a DecodeError from reconstruction is NOT handled
like a ProtocolCorruption — a connect that then delivers one undecodable
frame (2-by-2 header, 15-byte pixel block) terminates the worker with an
uncaught struct.error, instead of breaking back into the reconnect loop the
way a read error does. -/
theorem connector_decode_crash_counterexample :
    (connector [.connectOk [.frame [("NAXIS1", .num 2), ("NAXIS2", .num 2)]
        (List.replicate 15 0)]]).2.2 = .crashed .structError
    ∧ connection_handler [.frame [("NAXIS1", .num 2), ("NAXIS2", .num 2)]
        (List.replicate 15 0)] [] = ([], .uncaught .structError)
    ∧ connection_handler [.readErr] [] = ([], .caughtBreak)
    ∧ HandlerExit.uncaught .structError ≠ HandlerExit.caughtBreak := by
  refine ⟨by rfl, by rfl, by rfl, by decide⟩

/-- C3 (amended): ConnectionClosed and ProtocolCorruption raised during
read_window are caught — logged and followed by an immediate reconnect —
but a DecodeError raised by reconstruct_fits is not: it propagates out of
connection_handler and out of the connector loop, terminating the worker. -/
theorem worker_error_paths :
    (∀ (rest : List FrameIn) (q : List ImageRecord),
      connection_handler (.readErr :: rest) q = (q, .caughtBreak))
    ∧ (∀ (frames : List FrameIn) (rest : List ConnEvent) (q : List ImageRecord),
        connection_handler frames [] = (q, .caughtBreak) →
        (connector (.connectOk frames :: rest)).1
          = .attempt :: .streamStart :: (connector rest).1)
    ∧ (∀ (hdr : List (String × HVal)) (img : List Nat) (rest : List FrameIn)
        (q : List ImageRecord) (e : DecodeError),
        reconstruct_fits hdr img = .error e →
        connection_handler (.frame hdr img :: rest) q = (q, .uncaught e))
    ∧ (∀ (frames : List FrameIn) (rest : List ConnEvent)
        (q : List ImageRecord) (e : DecodeError),
        connection_handler frames [] = (q, .uncaught e) →
        (connector (.connectOk frames :: rest)).2.2 = .crashed e) := by
  refine ⟨fun _ _ => rfl, ?_, ?_, ?_⟩
  · intro frames rest q h
    simp only [connector, h]
  · intro hdr img rest q e h
    simp only [connection_handler, h]
  · intro frames rest q e h
    simp only [connector, h]

/-- Witness for C3 (amended) at concrete inputs: a read error leads back to
a new connect attempt with no sleep; an undecodable frame crashes the
worker. -/
theorem worker_error_paths_witness :
    connection_handler [.readErr] [] = ([], .caughtBreak)
    ∧ (connector [.connectOk [.readErr], .connectFail]).1
      = .attempt :: .streamStart :: (connector [ConnEvent.connectFail]).1
    ∧ (connector [.connectOk [.frame [("NAXIS1", .num 2), ("NAXIS2", .num 2)]
        (List.replicate 15 0)], .connectFail]).2.2 = .crashed .structError := by
  refine ⟨worker_error_paths.1 [] [], ?_, ?_⟩
  · exact worker_error_paths.2.1 [.readErr] [.connectFail] [] rfl
  · exact worker_error_paths.2.2.2
      [.frame [("NAXIS1", .num 2), ("NAXIS2", .num 2)] (List.replicate 15 0)]
      [.connectFail] [] .structError rfl

/-- C9: a worker whose connect fails N times and then succeeds performs
exactly N fixed 5-second waits, one after each failed attempt, and starts
streaming immediately after the successful connect; and when a streaming
session ends with a caught mid-stream error the next connect attempt
follows immediately, with no sleep. -/
theorem connector_retry_delays :
    (∀ (N : Nat) (frames : List FrameIn),
      (connector (List.replicate N .connectFail ++ [.connectOk frames])).1
        = (List.replicate N [TraceEv.attempt, TraceEv.sleep5]).flatten
          ++ [.attempt, .streamStart])
    ∧ (∀ (frames : List FrameIn) (rest : List ConnEvent) (q : List ImageRecord),
        connection_handler frames [] = (q, .caughtBreak) →
        (connector (.connectOk frames :: rest)).1
          = .attempt :: .streamStart :: (connector rest).1) := by
  constructor
  · intro N
    induction N with
    | zero =>
      intro frames
      simp only [List.replicate, List.nil_append, List.flatten, connector]
      match h : connection_handler frames [] with
      | (q, .caughtBreak) => simp [connector]
      | (q, .uncaught e) => simp
      | (q, .running) => simp
    | succ n ih =>
      intro frames
      simp only [List.replicate_succ, List.cons_append, connector,
        List.append_eq, List.flatten_cons]
      rw [ih frames]
      simp
  · intro frames rest q h
    simp only [connector, h]

/-- Witness for C9: two failed connects then a success produce the trace
attempt, sleep, attempt, sleep, attempt, stream-start; and after a caught
mid-stream read error the next attempt comes with no sleep in between. -/
theorem connector_retry_delays_witness :
    (connector (List.replicate 2 .connectFail ++ [.connectOk [.readErr]])).1
      = [TraceEv.attempt, .sleep5, .attempt, .sleep5, .attempt, .streamStart]
    ∧ (connector [.connectOk [.readErr], .connectFail]).1
      = .attempt :: .streamStart :: (connector [ConnEvent.connectFail]).1 := by
  constructor
  · rw [connector_retry_delays.1 2 [.readErr]]
    rfl
  · exact connector_retry_delays.2 [.readErr] [.connectFail] [] rfl

/-- The observable outcome of running the merger loop over a finite prefix
of its input queue: the batches put on grouped_queue in order, each paired
with the group timestamp held in `previous_timestamp` when it was emitted;
the still-open accumulation buffer `images`; the current
`previous_timestamp`; and the number of timing-error anomaly log lines. -/
structure MergerOut (R T : Type) where
  emitted : List (T × List R)
  images : List R
  prev : T
  anomalies : Nat
deriving DecidableEq

variable {R T : Type}

/-- The while-loop body of `merger` (stream.py lines 166-178), one queue
element per step.  `ts` is the timestamp extraction: `none` means the parse
raised, which nothing in the merger catches, so the loop dies (`none`
result).  A new timestamp strictly below `previous_timestamp` logs a timing
error (counted); then an equal timestamp appends to the buffer, and any
unequal timestamp emits the buffer and reopens with only the new record. -/
def mergerSteps [LinearOrder T] (ts : R → Option T) :
    List R → List (T × List R) → List R → T → Nat → Option (MergerOut R T)
  | [], acc, images, prev, anoms => some ⟨acc, images, prev, anoms⟩
  | r :: rest, acc, images, prev, anoms =>
    match ts r with
    | none => none
    | some t =>
      let anoms2 := if t < prev then anoms + 1 else anoms
      if t = prev then mergerSteps ts rest acc (images ++ [r]) prev anoms2
      else mergerSteps ts rest (acc ++ [(prev, images)]) [r] t anoms2

/-- `merger(image_queue, grouped_queue)` from stream.py over a finite
prefix of the queue: seed the buffer and `previous_timestamp` from the
first received record, then loop. -/
def mergerRun [LinearOrder T] (ts : R → Option T) (first : R)
    (rest : List R) : Option (MergerOut R T) :=
  match ts first with
  | none => none
  | some t => mergerSteps ts rest [] [first] t 0

theorem mergerSteps_batch_inv [LinearOrder T] (ts : R → Option T) :
    ∀ (l : List R) (acc : List (T × List R)) (images : List R) (prev : T)
      (anoms : Nat) (out : MergerOut R T),
    mergerSteps ts l acc images prev anoms = some out →
    (∀ b ∈ acc, b.2 ≠ [] ∧ ∀ r ∈ b.2, ts r = some b.1) →
    images ≠ [] → (∀ r ∈ images, ts r = some prev) →
    (∀ b ∈ out.emitted, b.2 ≠ [] ∧ ∀ r ∈ b.2, ts r = some b.1)
      ∧ out.images ≠ [] ∧ (∀ r ∈ out.images, ts r = some out.prev) := by
  intro l
  induction l with
  | nil =>
    intro acc images prev anoms out h hacc himg hts
    simp only [mergerSteps, Option.some.injEq] at h
    subst h
    exact ⟨hacc, himg, hts⟩
  | cons r rest ih =>
    intro acc images prev anoms out h hacc himg hts
    simp only [mergerSteps] at h
    cases hts2 : ts r with
    | none => rw [hts2] at h; simp at h
    | some t =>
      rw [hts2] at h
      dsimp only at h
      by_cases he : t = prev
      · rw [if_pos he] at h
        refine ih _ _ _ _ _ h hacc (by simp) ?_
        intro x hx
        rcases List.mem_append.mp hx with hx | hx
        · exact hts x hx
        · rw [List.mem_singleton.mp hx, hts2, he]
      · rw [if_neg he] at h
        refine ih _ _ _ _ _ h ?_ (by simp) ?_
        · intro b hb
          rcases List.mem_append.mp hb with hb | hb
          · exact hacc b hb
          · rw [List.mem_singleton.mp hb]
            exact ⟨himg, hts⟩
        · intro x hx
          rw [List.mem_singleton.mp hx, hts2]

theorem mergerSteps_no_boundary [LinearOrder T] (ts : R → Option T) :
    ∀ (l : List R) (acc : List (T × List R)) (images : List R) (prev : T)
      (anoms : Nat) (out : MergerOut R T),
    mergerSteps ts l acc images prev anoms = some out →
    (∀ r ∈ l, ts r = some prev) →
    out.emitted = acc := by
  intro l
  induction l with
  | nil =>
    intro acc images prev anoms out h _
    simp only [mergerSteps, Option.some.injEq] at h
    subst h
    rfl
  | cons r rest ih =>
    intro acc images prev anoms out h hall
    simp only [mergerSteps] at h
    rw [hall r (by simp)] at h
    dsimp only at h
    rw [if_pos rfl] at h
    exact ih _ _ _ _ _ h (fun x hx => hall x (by simp [hx]))

/-- C4: every batch the merger emits is nonempty and all its records carry
exactly the batch timestamp; and the in-progress group is emitted only when
a strictly different timestamp is observed — as long as every arriving
record carries the current group timestamp nothing is emitted (the loop has
no flush on idle or timeout at all). -/
theorem merger_batch_invariants [LinearOrder T] (ts : R → Option T)
    (first : R) (rest : List R) (out : MergerOut R T) (t0 : T)
    (h : mergerRun ts first rest = some out) (h0 : ts first = some t0) :
    (∀ b ∈ out.emitted, b.2 ≠ [] ∧ ∀ r ∈ b.2, ts r = some b.1)
    ∧ ((∀ r ∈ rest, ts r = some t0) → out.emitted = []) := by
  simp only [mergerRun, h0] at h
  constructor
  · exact (mergerSteps_batch_inv ts rest [] [first] t0 0 out h (by simp)
      (by simp) (by simp [h0])).1
  · intro hall
    exact mergerSteps_no_boundary ts rest [] [first] t0 0 out h hall

/-- Witness for C4 on the concrete input with timestamps 1, 1, 2, 2: the
emitted batch (1, [1, 1]) is nonempty with a uniform timestamp, and on the
all-equal input nothing would have been emitted. -/
theorem merger_batch_invariants_witness :
    (∀ b ∈ (⟨[(1, [1, 1])], [2, 2], 2, 0⟩ : MergerOut Nat Nat).emitted,
      b.2 ≠ [] ∧ ∀ r ∈ b.2, (fun n => some n) r = some b.1)
    ∧ ((∀ r ∈ [1, 2, 2], (fun n => some n) r = some 1)
        → (⟨[(1, [1, 1])], [2, 2], 2, 0⟩ : MergerOut Nat Nat).emitted = []) :=
  merger_batch_invariants (fun n => some n) 1 [1, 2, 2]
    ⟨[(1, [1, 1])], [2, 2], 2, 0⟩ 1 (by decide) rfl

/-- Counterexample to C1: on timestamps [t1, t1, t2, t2, t2, t1, t3]
(t1 = 1, t2 = 2, t3 = 3) the merger does NOT fold the out-of-order t1 into
the current buffer: the late t1 differs from the open group timestamp t2,
so the t2 batch is emitted and a new group holding only the late record is
opened; the emitted sequence is Batch(t1, 2), Batch(t2, 3), Batch(t1, 1) —
not the claimed [Batch(t1, 2), Batch(t2, 3)]. -/
theorem merger_scenario_counterexample :
    mergerRun (fun n => some n) 1 [1, 2, 2, 2, 1, 3]
      = some ⟨[(1, [1, 1]), (2, [2, 2, 2]), (1, [1])], [3], 3, 1⟩
    ∧ (Option.map (fun o => o.emitted.map (fun b => (b.1, b.2.length)))
        (mergerRun (fun n => some n) 1 [1, 2, 2, 2, 1, 3]
          : Option (MergerOut Nat Nat)))
      ≠ some [(1, 2), (2, 3)] := by
  exact ⟨by decide, by decide⟩

/-- C1 (amended): a record whose timestamp strictly precedes the current
group's timestamp logs one timing-error anomaly but acts as a group
boundary: the current buffer is emitted as a batch and a new group holding
only the late record is opened, with the older timestamp as the new current
timestamp.  Consequently on [t1, t1, t2, t2, t2, t1, t3] the merger emits
Batch(t1, 2 records), Batch(t2, 3 records), Batch(t1, 1 record), leaves the
t3 group open with one record, logs exactly one anomaly and does not
crash. -/
theorem merger_regression_boundary [LinearOrder T] (ts : R → Option T)
    (r : R) (rest : List R) (acc : List (T × List R)) (images : List R)
    (prev t : T) (anoms : Nat)
    (hts : ts r = some t) (hlt : t < prev) :
    mergerSteps ts (r :: rest) acc images prev anoms
      = mergerSteps ts rest (acc ++ [(prev, images)]) [r] t (anoms + 1)
    ∧ mergerRun (fun n => some n) 1 [1, 2, 2, 2, 1, 3]
      = some ⟨[(1, [1, 1]), (2, [2, 2, 2]), (1, [1])], [3], 3, 1⟩ := by
  constructor
  · simp only [mergerSteps, hts, if_pos hlt, if_neg (ne_of_lt hlt)]
  · decide

/-- Witness for C1 (amended): a late record with timestamp 4 hitting an
open group at timestamp 7 emits the group and reopens at 4, counting one
anomaly. -/
theorem merger_regression_boundary_witness :
    mergerSteps (fun n => some n) ([4] : List Nat) [] [7, 7] 7 0
      = mergerSteps (fun n => some n) [] [(7, [7, 7])] [4] 4 1
    ∧ mergerRun (fun n => some n) 1 [1, 2, 2, 2, 1, 3]
      = some ⟨[(1, [1, 1]), (2, [2, 2, 2]), (1, [1])], [3], 3, 1⟩ := by
  have h := merger_regression_boundary (fun n => some n) 4 ([] : List Nat)
    [] [7, 7] 7 4 0 rfl (by decide)
  exact h

/-- A frame metadata block whose date-obs value no date parser accepts. -/
def garbageHeader : List (String × HVal) :=
  [("NAXIS1", .num 1), ("NAXIS2", .num 1), ("date-obs", .str "not-a-date")]

/-- Counterexample to C2: a frame with an unparsable date-obs is
reconstructed WITHOUT any error — reconstruct_fits never parses date-obs —
and when the reconstructed record reaches the merger, the timestamp parse
raises inside the merger loop and the merger dies. -/
theorem merger_timestamp_crash_counterexample :
    reconstruct_fits garbageHeader [0, 0, 0, 0] = .ok ⟨garbageHeader, [[0]]⟩
    ∧ mergerRun extract_timestamp ⟨garbageHeader, [[0]]⟩ [] = none := by
  exact ⟨by rfl, by rfl⟩

/-- C2 (amended): an unparsable date-obs does not fail during per-connection
reconstruction — reconstruct_fits succeeds whenever the declared dimensions
match the pixel block, whatever date-obs holds — and the parse failure
surfaces in the Merger instead, whose extract_timestamp calls are
unguarded: a record whose timestamp cannot be parsed terminates the merger
loop, whether it is the first record or any later one. -/
theorem timestamp_error_location (hdr : List (String × HVal))
    (image_bytes : List Nat) (w h : Nat)
    (h1 : hlookup hdr "NAXIS1" = some (.num w))
    (h2 : hlookup hdr "NAXIS2" = some (.num h))
    (hlen : image_bytes.length = 4 * (w * h)) :
    (∃ rec, reconstruct_fits hdr image_bytes = .ok rec)
    ∧ (∀ (A B : Type) [LinearOrder B] (ts : A → Option B) (first : A)
        (rest : List A), ts first = none → mergerRun ts first rest = none)
    ∧ (∀ (A B : Type) [LinearOrder B] (ts : A → Option B) (r : A)
        (rest : List A) (acc : List (B × List A)) (images : List A)
        (prev : B) (anoms : Nat), ts r = none →
        mergerSteps ts (r :: rest) acc images prev anoms = none) := by
  refine ⟨⟨⟨hdr, chunkRows w h (le32words image_bytes)⟩, ?_⟩, ?_, ?_⟩
  · simp only [reconstruct_fits, h1, h2]
    rw [if_pos (by omega : image_bytes.length % 4 = 0),
      if_pos (by rw [le32words_length]; omega)]
  · intro A B _ ts first rest hnone
    simp only [mergerRun, hnone]
  · intro A B _ ts r rest acc images prev anoms hnone
    simp only [mergerSteps, hnone]

/-- Witness for C2 (amended) on the concrete garbage frame: reconstruction
succeeds, and the merger dies on the record, both as the seed record and as
a mid-stream arrival. -/
theorem timestamp_error_location_witness :
    (∃ rec, reconstruct_fits garbageHeader [0, 0, 0, 0] = .ok rec)
    ∧ mergerRun extract_timestamp ⟨garbageHeader, [[0]]⟩
        [⟨garbageHeader, [[0]]⟩] = none
    ∧ mergerSteps (fun _ => (none : Option Nat)) [9] [] [1] 1 0 = none := by
  have h := timestamp_error_location garbageHeader [0, 0, 0, 0] 1 1 rfl rfl rfl
  exact ⟨h.1, h.2.1 ImageRecord Nat extract_timestamp _ _ rfl,
    h.2.2 Nat Nat (fun _ => none) 9 [] [] [1] 1 0 rfl⟩

end TKP
